import Mathlib

/-!
Verification of the can-socket core (frame validation, filter engine,
buffer pool, batch codec, socket registry) as a shallow embedding of
`src/lib.rs` and `src/lib_optimized.rs`.

Machine integers are modelled as `Nat` with explicit `% 2^w` where the
Rust code performs a lossy cast (`id as u16`, `data.len() as u8`), byte
sequences as `List Nat`, and fallible operations return `Except`.
-/

namespace CanSocket

/-- The send-side error taxonomy of `CanSocketWrapper::send_frame`, one
constructor per distinct `Err(..)` string in the source. -/
inductive SendError
  /-- error string `Invalid standard CAN ID` / `Invalid extended CAN ID` -/
  | invalidId
  /-- error string `Cannot send FD frame on regular CAN socket` -/
  | fdOnClassic
  /-- error string `Data too long for regular CAN frame (max 8 bytes)` -/
  | tooLongClassic
  /-- error string `Data too long for CAN FD frame (max 64 bytes)` -/
  | tooLongFd
  /-- error string `Remote frames are not supported on CAN FD sockets` -/
  | remoteOnFd
  deriving DecidableEq, Repr

/-- The two socket variants of `CanSocketWrapper` (`Regular` / `Fd`). -/
inductive SocketKind
  | regular
  | fd
  deriving DecidableEq, Repr

/-- Identifier validation exactly as in `send_frame`:
`ExtendedId::new(id)` succeeds iff `id ≤ 0x1FFFFFFF`;
`StandardId::new(id as u16)` first truncates to 16 bits and then
succeeds iff the truncated value is `≤ 0x7FF`.  Returns the raw id
actually placed in the frame. -/
def validateId (id : Nat) (extended : Bool) : Except SendError Nat :=
  if extended then
    if id ≤ 0x1FFFFFFF then .ok id else .error .invalidId
  else
    let t := id % 65536
    if t ≤ 0x7FF then .ok t else .error .invalidId

/-- A frame as written to the transport by `write_frame`. -/
structure SentFrame where
  canId : Nat
  extended : Bool
  data : List Nat
  /-- length code; for remote frames the requested length -/
  dlc : Nat
  isFd : Bool
  isRemote : Bool
  deriving DecidableEq, Repr

/-- `CanSocketWrapper::send_frame`, with the transport write replaced by
returning the frame that would be written.  Control flow mirrors the
source: identifier validation first, then per-variant checks in source
order (Regular: fd flag, length > 8, remote/data; Fd: length > 64,
remote flag, fd flag, fallback length > 8). -/
def sendFrame (kind : SocketKind) (id : Nat) (data : List Nat)
    (extended isFd isRemote : Bool) : Except SendError SentFrame :=
  match validateId id extended with
  | .error e => .error e
  | .ok cid =>
    match kind with
    | .regular =>
      if isFd then .error .fdOnClassic
      else if data.length > 8 then .error .tooLongClassic
      else if isRemote then
        .ok ⟨cid, extended, [], if data.isEmpty then 0 else data.length, false, true⟩
      else
        .ok ⟨cid, extended, data, data.length, false, false⟩
    | .fd =>
      if data.length > 64 then .error .tooLongFd
      else if isRemote then .error .remoteOnFd
      else if isFd then
        .ok ⟨cid, extended, data, data.length, true, false⟩
      else if data.length > 8 then .error .tooLongClassic
      else
        .ok ⟨cid, extended, data, data.length, false, false⟩

/-- Whether a send attempt is accepted. -/
def sendAccepts (kind : SocketKind) (id : Nat) (data : List Nat)
    (extended isFd isRemote : Bool) : Bool :=
  match sendFrame kind id data extended isFd isRemote with
  | .ok _ => true
  | .error _ => false

/-! ## Batch codec (`read_frames_batch_optimized` / `send_frames_batch_optimized`) -/

/-- One frame tuple `(id, data, extended, is_fd, is_remote, is_error)` as
produced by `read_frame` and serialized by `read_frames_batch_optimized`. -/
structure BatchFrame where
  id : Nat
  data : List Nat
  extended : Bool
  isFd : Bool
  isRemote : Bool
  isError : Bool
  deriving DecidableEq, Repr

/-- One frame tuple `(id, data, extended, is_fd, is_remote)` as parsed by
`send_frames_batch_optimized`; the record format has no field for the
error bit on the way out of the decoder. -/
structure DecFrame where
  id : Nat
  data : List Nat
  extended : Bool
  isFd : Bool
  isRemote : Bool
  deriving DecidableEq, Repr

/-- `u32::to_le_bytes`: the four little-endian bytes of a 32-bit value. -/
def u32le (n : Nat) : List Nat :=
  [n % 256, n / 256 % 256, n / 65536 % 256, n / 16777216 % 256]

/-- The packed flags byte:
`(extended as u8) | ((is_fd as u8) << 1) | ((is_remote as u8) << 2) | ((is_error as u8) << 3)`. -/
def flagsByte (f : BatchFrame) : Nat :=
  (if f.extended then 1 else 0)
    ||| ((if f.isFd then 1 else 0) <<< 1)
    ||| ((if f.isRemote then 1 else 0) <<< 2)
    ||| ((if f.isError then 1 else 0) <<< 3)

/-- Per-frame wire encoding `[id:u32 le][data_len:u8][flags:u8][data]`
from `read_frames_batch_optimized`; `data.len() as u8` truncates. -/
def encodeFrame (f : BatchFrame) : List Nat :=
  u32le f.id ++ [f.data.length % 256] ++ [flagsByte f] ++ f.data

/-- Concatenation of the per-frame encodings, in order. -/
def encodeBatch (fs : List BatchFrame) : List Nat :=
  (fs.map encodeFrame).flatten

/-- The parsing loop of `send_frames_batch_optimized`, fuel-indexed for
structural recursion (each iteration consumes at least 6 bytes, so fuel
`bytes.length` never runs out; see `decodeBatchAux_fuel_irrel`).

The source loop runs `while offset + 6 < frames_data.len()`, i.e. only
while STRICTLY more than 6 bytes remain — the `rest.isEmpty` test below.
It reads 4 id bytes (`u32::from_le_bytes`), one length byte, one flags
byte of which only bits 0..2 are unpacked, and then breaks (silently
discarding the tail) when the declared payload overruns the buffer. -/
def decodeBatchAux : Nat → List Nat → List DecFrame
  | fuel + 1, b0 :: b1 :: b2 :: b3 :: b4 :: b5 :: rest =>
    if rest.isEmpty then []
    else
      let id := b0 + b1 * 256 + b2 * 65536 + b3 * 16777216
      let extended := (b5 &&& 0x01) != 0
      let isFd := (b5 &&& 0x02) != 0
      let isRemote := (b5 &&& 0x04) != 0
      if b4 ≤ rest.length then
        ⟨id, rest.take b4, extended, isFd, isRemote⟩ :: decodeBatchAux fuel (rest.drop b4)
      else []
  | _ + 1, _ => []
  | 0, _ => []

/-- Batch decoding of `send_frames_batch_optimized`. -/
def decodeBatch (bytes : List Nat) : List DecFrame :=
  decodeBatchAux bytes.length bytes

/-- The decoder's view of an encoded frame: the error flag is dropped. -/
def projectFrame (f : BatchFrame) : DecFrame :=
  ⟨f.id, f.data, f.extended, f.isFd, f.isRemote⟩

/-- `true` iff the batch is empty or its final frame has a nonempty
payload (the condition under which the decoder does not lose a record). -/
def lastNonempty (fs : List BatchFrame) : Bool :=
  match fs.getLast? with
  | none => true
  | some f => !f.data.isEmpty

/-- `true` iff the decoder discards the byte sequence `t` outright when
it is the remaining tail: fewer than 6 bytes, exactly 6 bytes (the loop
needs strictly more), or a declared payload overrunning the buffer. -/
def isDiscardedTail (t : List Nat) : Bool :=
  match t with
  | _ :: _ :: _ :: _ :: b4 :: _ :: rest => rest.isEmpty || decide (rest.length < b4)
  | _ => true

/-! ## Bulk send (`send_frames_batch_optimized`, send loop) -/

/-- A decoded send request `(id, data, extended, is_fd, is_remote)`. -/
abbrev FrameReq : Type := Nat × List Nat × Bool × Bool × Bool

/-- Sending one decoded request through `send_frame`. -/
def trySend (kind : SocketKind) (f : FrameReq) : Except SendError SentFrame :=
  sendFrame kind f.1 f.2.1 f.2.2.1 f.2.2.2.1 f.2.2.2.2

/-- The send loop of `send_frames_batch_optimized`: `sent_count` starts
at 0 and is incremented per successful send; on the first failure the
loop stops and reports the current `sent_count` (the zero-based index of
the failing frame).  The first component is the list of frames actually
written to the transport, in order. -/
def sendLoop (kind : SocketKind) (frames : List FrameReq) (sentCount : Nat) :
    List SentFrame × Except Nat Nat :=
  match frames with
  | [] => ([], .ok sentCount)
  | f :: rest =>
    match trySend kind f with
    | .ok s =>
      let r := sendLoop kind rest (sentCount + 1)
      (s :: r.1, r.2)
    | .error _ => ([], .error sentCount)

/-- Bulk send over a list of decoded requests. -/
def bulkSend (kind : SocketKind) (frames : List FrameReq) :
    List SentFrame × Except Nat Nat :=
  sendLoop kind frames 0

/-! ## Filter engine (`set_filters` / `clear_filters`) -/

/-- The device-level filter list installed on a socket; each entry is an
`(id, mask)` pair as passed to `CanFilter::new`. -/
structure FilterState where
  device : List (Nat × Nat)
  deriving DecidableEq, Repr

/-- The device filters computed by `set_filters`: the `extended` marker
of each triple is dropped, and an empty list is replaced by the single
explicit accept-all filter `(0, 0)`. -/
def setFiltersDevice (filters : List (Nat × Nat × Bool)) : List (Nat × Nat) :=
  let canFilters := filters.map (fun f => (f.1, f.2.1))
  if canFilters.isEmpty then [(0, 0)] else canFilters

/-- `CanSocketWrapper::set_filters`: replaces the installed set wholesale. -/
def applySetFilters (_s : FilterState) (filters : List (Nat × Nat × Bool)) : FilterState :=
  ⟨setFiltersDevice filters⟩

/-- `CanSocketWrapper::clear_filters`: installs the accept-all filter `(0,0)`. -/
def applyClearFilters (_s : FilterState) : FilterState :=
  ⟨[(0, 0)]⟩

/-- SocketCAN acceptance test for one filter:
`received_id & mask == filter_id & mask`. -/
def filterMatches (f : Nat × Nat) (id : Nat) : Bool :=
  (id &&& f.2) == (f.1 &&& f.2)

/-! ## Buffer pool (`BufferPool` in `lib.rs`) -/

/-- A `Vec<u8>` modelled by its contents and its capacity. -/
structure PoolBuffer where
  data : List Nat
  cap : Nat
  deriving DecidableEq, Repr

/-- `BufferPool`: free list plus hit/miss counters. -/
structure BufferPool where
  buffers : List PoolBuffer
  hits : Nat
  misses : Nat
  deriving DecidableEq, Repr

/-- `BufferPool::new(pool_size, buffer_capacity)`: pre-seeds `pool_size`
empty buffers of the given capacity. -/
def BufferPool.init (poolSize bufferCapacity : Nat) : BufferPool :=
  ⟨List.replicate poolSize ⟨[], bufferCapacity⟩, 0, 0⟩

/-- `BufferPool::get_buffer`: pop from the free list (recording a hit)
or allocate a fresh 64-capacity buffer (recording a miss).  The free
list is kept head-first, head = the end Rust's `Vec::pop` removes. -/
def BufferPool.getBuffer (p : BufferPool) : PoolBuffer × BufferPool :=
  match p.buffers with
  | b :: rest => (b, ⟨rest, p.hits + 1, p.misses⟩)
  | [] => (⟨[], 64⟩, ⟨[], p.hits, p.misses + 1⟩)

/-- `BufferPool::return_buffer`: clear the buffer (capacity preserved),
then keep it only if its capacity is in `[8, 128]` and the pool holds
fewer than 100 buffers; otherwise drop it. -/
def BufferPool.returnBuffer (p : BufferPool) (b : PoolBuffer) : BufferPool :=
  let cleared : PoolBuffer := ⟨[], b.cap⟩
  if 8 ≤ b.cap ∧ b.cap ≤ 128 then
    if p.buffers.length < 100 then
      { p with buffers := cleared :: p.buffers }
    else p
  else p

/-- One pool interaction: an acquisition, or the release of some buffer
(of arbitrary contents/capacity — callers may have grown it). -/
inductive PoolOp
  | acquire
  | release (b : PoolBuffer)

/-- State effect of one pool interaction. -/
def poolStep (p : BufferPool) (op : PoolOp) : BufferPool :=
  match op with
  | .acquire => (p.getBuffer).2
  | .release b => p.returnBuffer b

/-- Run a sequence of pool interactions. -/
def runPool (p : BufferPool) (ops : List PoolOp) : BufferPool :=
  ops.foldl poolStep p

/-- The pool invariant claimed by the spec: every stored buffer is empty
and the pool never exceeds 100 buffers. -/
def poolInv (p : BufferPool) : Prop :=
  (∀ b ∈ p.buffers, b.data = []) ∧ p.buffers.length ≤ 100

/-! ## Socket registry (`SOCKET_REGISTRY`, `close_socket`) -/

/-- Registry-level errors: an unknown handle raises "Invalid socket ID". -/
inductive RegError
  | handleNotFound
  deriving DecidableEq, Repr

/-- The registry `HashMap<u32, CanSocketWrapper>` as an association list. -/
abbrev Registry : Type := List (Nat × SocketKind)

/-- `registry.get(&socket_id)`. -/
def lookupSocket (r : Registry) (h : Nat) : Option SocketKind :=
  (r.find? (fun p => p.1 == h)).map (fun p => p.2)

/-- `registry.remove(&socket_id)`. -/
def removeSocket (r : Registry) (h : Nat) : Registry :=
  r.filter (fun p => p.1 != h)

/-- `CanSocketWrapper::close`: always `Ok(())` (resources are released
on drop). -/
def wrapperClose (_k : SocketKind) : Except RegError Unit :=
  .ok ()

/-- `close_socket`: look the handle up; if present run the (always
successful) wrapper close and erase the entry, otherwise throw
"Invalid socket ID". -/
def closeSocket (r : Registry) (h : Nat) : Except RegError Registry :=
  match lookupSocket r h with
  | some k =>
    match wrapperClose k with
    | .ok _ => .ok (removeSocket r h)
    | .error e => .error e
  | none => .error .handleNotFound

/-- `send_frame` (JS entry point): registry lookup, then the wrapper
send; an unknown handle fails with `HandleNotFound`. -/
def sendViaRegistry (r : Registry) (h : Nat) (id : Nat) (data : List Nat)
    (extended isFd isRemote : Bool) :
    Except RegError (Except SendError SentFrame) :=
  match lookupSocket r h with
  | some k => .ok (sendFrame k id data extended isFd isRemote)
  | none => .error .handleNotFound

/-- `set_filters` (JS entry point): registry lookup, then the wrapper
filter update; an unknown handle fails with `HandleNotFound`. -/
def setFiltersViaRegistry (r : Registry) (h : Nat)
    (filters : List (Nat × Nat × Bool)) :
    Except RegError (List (Nat × Nat)) :=
  match lookupSocket r h with
  | some _ => .ok (setFiltersDevice filters)
  | none => .error .handleNotFound

/-- A received frame tuple `(id, data, extended, is_fd, is_remote, is_error)`
as returned by `CanSocketWrapper::read_frame`. -/
abbrev ReadResult : Type := Nat × List Nat × Bool × Bool × Bool × Bool

/-! ## Receive-error classification (`read_frame`) -/

/-- A receive-side failure as surfaced to the caller. -/
inductive ReadError
  /-- the dedicated "Operation timed out" error -/
  | timeout
  /-- any other transport failure, message preserved -/
  | transport (msg : List Char)
  deriving DecidableEq

/-- `str::to_lowercase` over the characters of a message. -/
def toLowerStr (s : List Char) : List Char :=
  s.map Char.toLower

/-- Leading-segment test: does the second list start with the first? -/
def beginsWith : List Char → List Char → Bool
  | [], _ => true
  | _ :: _, [] => false
  | p :: ps, c :: cs => p == c && beginsWith ps cs

/-- Contiguous-substring test (`str::contains`). -/
def containsSub (pat : List Char) : List Char → Bool
  | [] => pat.isEmpty
  | c :: rest => beginsWith pat (c :: rest) || containsSub pat rest

/-- The five substrings `read_frame` in `lib_optimized.rs` treats as a
timeout/would-block condition. -/
def timeoutPatterns : List (List Char) :=
  [ "timeout".data, "timed out".data, "would block".data, "eagain".data,
    "resource temporarily unavailable".data ]

/-- Whether a transport error message is classified as a timeout. -/
def isTimeoutMsg (msg : List Char) : Bool :=
  timeoutPatterns.any (fun p => containsSub p (toLowerStr msg))

/-- Error mapping of `read_frame` in `lib_optimized.rs`: a message
matching one of the timeout patterns becomes the dedicated timeout
error, anything else passes through. -/
def classifyReadErrorOptimized (msg : List Char) : ReadError :=
  if isTimeoutMsg msg then .timeout else .transport msg

/-- Error mapping of `read_frame` in `lib.rs`: the transport error is
propagated unchanged (`socket.read_frame()?`), with no classification. -/
def classifyReadErrorLib (msg : List Char) : ReadError :=
  .transport msg

/-- `read_frame` (JS entry point): registry lookup, then the wrapper
read; an unknown handle fails with `HandleNotFound`.  The wrapper-level
read goes through the external device transport, so its outcome is a
parameter (`wrapperRead`), applied only when the handle resolves. -/
def readViaRegistry (r : Registry) (h : Nat) (timeoutMs : Option Nat)
    (wrapperRead : SocketKind → Option Nat → Except ReadError ReadResult) :
    Except RegError (Except ReadError ReadResult) :=
  match lookupSocket r h with
  | some k => .ok (wrapperRead k timeoutMs)
  | none => .error .handleNotFound

/-! ## Helper lemmas -/

instance {ε α : Type} [DecidableEq ε] [DecidableEq α] : DecidableEq (Except ε α) :=
  fun a b =>
    match a, b with
    | .ok x, .ok y =>
      if h : x = y then isTrue (by rw [h]) else isFalse (by intro hxy; cases hxy; exact h rfl)
    | .error x, .error y =>
      if h : x = y then isTrue (by rw [h]) else isFalse (by intro hxy; cases hxy; exact h rfl)
    | .ok _, .error _ => isFalse (by intro h; cases h)
    | .error _, .ok _ => isFalse (by intro h; cases h)

/-- After `registry.remove(&h)` the handle `h` no longer resolves. -/
theorem lookup_remove_self (r : Registry) (hdl : Nat) :
    lookupSocket (removeSocket r hdl) hdl = none := by
  induction r with
  | nil => rfl
  | cons p r ih =>
    by_cases hp : p.1 = hdl
    · have hdrop : removeSocket (p :: r) hdl = removeSocket r hdl := by
        simp [removeSocket, List.filter_cons, hp]
      rw [hdrop]
      exact ih
    · have hkeep : removeSocket (p :: r) hdl = p :: removeSocket r hdl := by
        simp [removeSocket, List.filter_cons, hp]
      rw [hkeep]
      simpa [lookupSocket, List.find?_cons, hp] using ih

/-- Byte lists shorter than a record header decode to nothing, at any fuel. -/
theorem decodeBatchAux_short (fuel : Nat) (l : List Nat) (h : l.length < 6) :
    decodeBatchAux fuel l = [] := by
  cases fuel with
  | zero => rfl
  | succ n =>
    rcases l with _ | ⟨a, _ | ⟨b, _ | ⟨c, _ | ⟨d, _ | ⟨e, _ | ⟨g, rest⟩⟩⟩⟩⟩⟩ <;>
      first
        | rfl
        | (exfalso; simp at h; omega)

/-- Unfolding equation of the decoder at an explicit header. -/
theorem decodeBatchAux_step (fuel b0 b1 b2 b3 b4 b5 : Nat) (rest : List Nat) :
    decodeBatchAux (fuel + 1) (b0 :: b1 :: b2 :: b3 :: b4 :: b5 :: rest) =
      if rest.isEmpty then []
      else if b4 ≤ rest.length then
        ⟨b0 + b1 * 256 + b2 * 65536 + b3 * 16777216, rest.take b4,
         (b5 &&& 0x01) != 0, (b5 &&& 0x02) != 0, (b5 &&& 0x04) != 0⟩ ::
          decodeBatchAux fuel (rest.drop b4)
      else [] := rfl

/-- A list of length at least 6 decomposes into six heads and a tail. -/
theorem exists_six_cons : ∀ (l : List Nat), 6 ≤ l.length →
    ∃ b0 b1 b2 b3 b4 b5 rest, l = b0 :: b1 :: b2 :: b3 :: b4 :: b5 :: rest
  | b0 :: b1 :: b2 :: b3 :: b4 :: b5 :: rest, _ => ⟨b0, b1, b2, b3, b4, b5, rest, rfl⟩
  | [], h => by simp at h
  | [_], h => by simp at h
  | [_, _], h => by simp at h
  | [_, _, _], h => by simp at h
  | [_, _, _, _], h => by simp at h
  | [_, _, _, _, _], h => by simp at h

/-- The decoder's result does not depend on the fuel, as long as the
fuel dominates the buffer length. -/
theorem decodeBatchAux_fuel_irrel :
    ∀ (fuel₁ fuel₂ : Nat) (l : List Nat),
      l.length ≤ fuel₁ → l.length ≤ fuel₂ →
      decodeBatchAux fuel₁ l = decodeBatchAux fuel₂ l := by
  intro fuel₁
  induction fuel₁ with
  | zero =>
    intro fuel₂ l h₁ h₂
    have hl : l = [] := List.eq_nil_of_length_eq_zero (Nat.le_zero.mp h₁)
    subst hl
    rw [decodeBatchAux_short 0 [] (by simp), decodeBatchAux_short fuel₂ [] (by simp)]
  | succ n ih =>
    intro fuel₂ l h₁ h₂
    by_cases hlen : l.length < 6
    · rw [decodeBatchAux_short _ _ hlen, decodeBatchAux_short _ _ hlen]
    · push_neg at hlen
      obtain ⟨b0, b1, b2, b3, b4, b5, rest, rfl⟩ := exists_six_cons l hlen
      · simp only [List.length_cons] at h₁ h₂
        cases fuel₂ with
        | zero => omega
        | succ m =>
          rw [decodeBatchAux_step, decodeBatchAux_step]
          by_cases hre : rest.isEmpty = true
          · rw [if_pos hre, if_pos hre]
          · rw [if_neg hre, if_neg hre]
            by_cases hb4 : b4 ≤ rest.length
            · rw [if_pos hb4, if_pos hb4]
              congr 1
              have hd : (rest.drop b4).length = rest.length - b4 := List.length_drop b4 rest
              exact ih m (rest.drop b4) (by omega) (by omega)
            · rw [if_neg hb4, if_neg hb4]

/-- A tail the decoder discards decodes to nothing on its own. -/
theorem decodeBatch_discardedTail (t : List Nat) (h : isDiscardedTail t = true) :
    decodeBatch t = [] := by
  rcases t with _ | ⟨b0, _ | ⟨b1, _ | ⟨b2, _ | ⟨b3, _ | ⟨b4, _ | ⟨b5, rest⟩⟩⟩⟩⟩⟩
  case nil => rfl
  case cons.nil => exact decodeBatchAux_short _ _ (by simp)
  case cons.cons.nil => exact decodeBatchAux_short _ _ (by simp)
  case cons.cons.cons.nil => exact decodeBatchAux_short _ _ (by simp)
  case cons.cons.cons.cons.nil => exact decodeBatchAux_short _ _ (by simp)
  case cons.cons.cons.cons.cons.nil => exact decodeBatchAux_short _ _ (by simp)
  case cons.cons.cons.cons.cons.cons =>
    simp only [isDiscardedTail, Bool.or_eq_true, decide_eq_true_eq] at h
    unfold decodeBatch
    rw [show (b0 :: b1 :: b2 :: b3 :: b4 :: b5 :: rest).length = rest.length + 5 + 1 by
      simp]
    rw [decodeBatchAux_step]
    rcases h with h | h
    · simp [h]
    · have hnb : ¬ b4 ≤ rest.length := by omega
      simp [hnb]

/-- Little-endian reassembly inverts `u32::to_le_bytes` below `2^32`. -/
theorem u32le_decode (n : Nat) (h : n < 4294967296) :
    n % 256 + n / 256 % 256 * 256 + n / 65536 % 256 * 65536 +
      n / 16777216 % 256 * 16777216 = n := by
  omega

/-- The three flag bits the decoder unpacks invert the encoder's packing. -/
theorem flagsByte_bits (f : BatchFrame) :
    ((flagsByte f &&& 0x01) != 0) = f.extended ∧
    ((flagsByte f &&& 0x02) != 0) = f.isFd ∧
    ((flagsByte f &&& 0x04) != 0) = f.isRemote := by
  obtain ⟨id, data, e, fd, rm, er⟩ := f
  cases e <;> cases fd <;> cases rm <;> cases er <;> simp [flagsByte] <;> decide

/-- A frame encoding is never empty (it has a 6-byte header). -/
theorem encodeFrame_ne_nil (f : BatchFrame) : encodeFrame f ≠ [] := by
  simp [encodeFrame, u32le]

/-- The decoder consumes one full leading record whenever bytes follow
its header (payload or further input). -/
theorem decodeBatch_cons (f : BatchFrame) (r : List Nat)
    (hid : f.id < 4294967296) (hlen : f.data.length < 256)
    (hne : f.data ≠ [] ∨ r ≠ []) :
    decodeBatch (encodeFrame f ++ r) = projectFrame f :: decodeBatch r := by
  have hdlen : f.data.length % 256 = f.data.length := Nat.mod_eq_of_lt hlen
  have hshape : encodeFrame f ++ r =
      f.id % 256 :: f.id / 256 % 256 :: f.id / 65536 % 256 :: f.id / 16777216 % 256 ::
        (f.data.length % 256) :: flagsByte f :: (f.data ++ r) := by
    simp [encodeFrame, u32le]
  rw [hshape]
  unfold decodeBatch
  rw [show (f.id % 256 :: f.id / 256 % 256 :: f.id / 65536 % 256 :: f.id / 16777216 % 256 ::
      (f.data.length % 256) :: flagsByte f :: (f.data ++ r)).length
      = (f.data ++ r).length + 5 + 1 by simp]
  rw [decodeBatchAux_step]
  have hni : ¬ ((f.data ++ r).isEmpty = true) := by
    rcases hne with h | h <;> simp [List.isEmpty_iff, h]
  rw [if_neg hni, hdlen, if_pos (by simp : f.data.length ≤ (f.data ++ r).length)]
  rw [List.take_left, List.drop_left]
  congr 1
  · obtain ⟨h1, h2, h3⟩ := flagsByte_bits f
    rw [u32le_decode f.id hid, h1, h2, h3]
    rfl
  · have hr : r.length ≤ (f.data ++ r).length + 5 := by
      rw [List.length_append]
      omega
    exact decodeBatchAux_fuel_irrel _ _ r hr (Nat.le_refl _)

/-- With nonempty final frames appended after a nonempty batch tail the
last-frame test transfers along the head. -/
theorem lastNonempty_cons_cons (f g : BatchFrame) (fs : List BatchFrame) :
    lastNonempty (f :: g :: fs) = lastNonempty (g :: fs) := by
  simp [lastNonempty, List.getLast?_cons_cons]

/-- Decoding an encoded batch followed by a discarded tail yields
exactly the encoded frames (without their error bit). -/
theorem decode_encode_append (fs : List BatchFrame) (t : List Nat)
    (hid : ∀ f ∈ fs, f.id < 4294967296)
    (hlen : ∀ f ∈ fs, f.data.length < 256)
    (hok : lastNonempty fs = true ∨ t ≠ [])
    (htail : isDiscardedTail t = true) :
    decodeBatch (encodeBatch fs ++ t) = fs.map projectFrame := by
  induction fs with
  | nil =>
    simpa [encodeBatch] using decodeBatch_discardedTail t htail
  | cons f fs ih =>
    have hcons : encodeBatch (f :: fs) = encodeFrame f ++ encodeBatch fs := by
      simp [encodeBatch]
    have hne : f.data ≠ [] ∨ (encodeBatch fs ++ t) ≠ [] := by
      cases fs with
      | nil =>
        rcases hok with hok | hok
        · left
          simpa [lastNonempty, List.isEmpty_iff] using hok
        · right
          simp [encodeBatch, hok]
      | cons g gs =>
        right
        intro hcontra
        have hlen0 := congrArg List.length hcontra
        simp [encodeBatch, encodeFrame, u32le] at hlen0
    have hok2 : lastNonempty fs = true ∨ t ≠ [] := by
      rcases hok with hok | hok
      · cases fs with
        | nil => left; rfl
        | cons g gs =>
          left
          rw [← lastNonempty_cons_cons f g gs]
          exact hok
      · right; exact hok
    rw [hcons, List.append_assoc,
      decodeBatch_cons f (encodeBatch fs ++ t) (hid f (by simp)) (hlen f (by simp)) hne,
      List.map_cons,
      ih (fun g hg => hid g (by simp [hg])) (fun g hg => hlen g (by simp [hg])) hok2]

/-! ## Claims -/

set_option maxRecDepth 40000

/-- C1: the spec claims every Standard id in `[0x800, 0x1FFFFFFF]` is
rejected with `InvalidId`.  The code truncates the id to 16 bits
(`id as u16`) before the `≤ 0x7FF` check, so `0x10000` — inside that
range — is accepted and silently sent as standard id `0`, while the
boundary values behave as claimed. -/
theorem C1_standard_id_truncation :
    validateId 0x7FF false = .ok 0x7FF ∧
    validateId 0x800 false = .error .invalidId ∧
    validateId 0xFFFF false = .error .invalidId ∧
    (0x800 ≤ 0x10000 ∧ 0x10000 ≤ 0x1FFFFFFF) ∧
    validateId 0x10000 false = .ok 0 ∧
    sendFrame .regular 0x10000 [1] false false false =
      .ok ⟨0, false, [1], 1, false, false⟩ := by
  decide

/-- C2 counterexample: a single frame with an empty payload encodes to
exactly 6 bytes, and decoding that buffer yields no frames at all — the
decode loop requires strictly more than 6 remaining bytes, so the
round-trip loses the frame even though the total length lands on a
record boundary. -/
theorem C2_counterexample :
    (encodeBatch [⟨0x123, [], false, false, false, false⟩]).length = 6 ∧
    decodeBatch (encodeBatch [⟨0x123, [], false, false, false, false⟩]) = [] ∧
    ([] : List DecFrame) ≠ [projectFrame ⟨0x123, [], false, false, false, false⟩] := by
  decide

/-- C2 (amended): encoding then decoding reproduces the id, payload and
extended/fd/remote flags of every frame — the error bit is not part of
the decoded record — provided each id fits 32 bits, each payload is
shorter than 256 bytes, and (when the batch is nonempty) the final
frame's payload is nonempty; a trailing record with empty payload is
silently dropped by the decoder. -/
theorem C2_roundtrip (fs : List BatchFrame)
    (hid : ∀ f ∈ fs, f.id < 4294967296)
    (hlen : ∀ f ∈ fs, f.data.length < 256)
    (hlast : lastNonempty fs = true) :
    decodeBatch (encodeBatch fs) = fs.map projectFrame := by
  have h := decode_encode_append fs [] hid hlen (Or.inl hlast) (by decide)
  simpa using h

/-- C2 witness: a two-frame batch round-trips. -/
theorem C2_roundtrip_witness :
    decodeBatch (encodeBatch
      [⟨0x123, [1, 2], false, false, false, false⟩,
       ⟨0x1ABCDE, [5], true, true, false, false⟩]) =
      [⟨0x123, [1, 2], false, false, false⟩, ⟨0x1ABCDE, [5], true, true, false⟩] := by
  have h := C2_roundtrip
    [⟨0x123, [1, 2], false, false, false, false⟩, ⟨0x1ABCDE, [5], true, true, false, false⟩]
    (by decide) (by decide) (by decide)
  rw [h]
  decide

/-- C3 counterexample: a buffer holding exactly one complete 6-byte
record (empty payload) has at least 6 bytes remaining, yet decode parses
nothing — the loop runs only while STRICTLY more than 6 bytes remain;
the same record is parsed when further bytes follow it. -/
theorem C3_counterexample :
    ([1, 0, 0, 0, 0, 0] : List Nat).length = 6 ∧
    decodeBatch [1, 0, 0, 0, 0, 0] = [] ∧
    decodeBatch ([1, 0, 0, 0, 0, 0] ++ [2, 0, 0, 0, 0, 0]) =
      [⟨1, [], false, false, false⟩] := by
  decide

/-- C3 (amended): decode parses records sequentially while strictly
more than 6 bytes remain; a remaining tail of at most 6 bytes — even a
complete 6-byte record — or one whose declared payload overruns the
buffer is silently discarded, the decode completes without error, and
exactly the preceding complete records are produced. -/
theorem C3_truncated_tail (fs : List BatchFrame) (t : List Nat)
    (hid : ∀ f ∈ fs, f.id < 4294967296)
    (hlen : ∀ f ∈ fs, f.data.length < 256)
    (ht : t ≠ [])
    (htail : isDiscardedTail t = true) :
    decodeBatch (encodeBatch fs ++ t) = fs.map projectFrame :=
  decode_encode_append fs t hid hlen (Or.inr ht) htail

/-- C3 witness: one complete record followed by a 3-byte truncated tail
decodes to exactly the complete record. -/
theorem C3_truncated_tail_witness :
    decodeBatch (encodeBatch [⟨0x100, [7], false, false, false, false⟩] ++ [9, 9, 9]) =
      [⟨0x100, [7], false, false, false⟩] := by
  have h := C3_truncated_tail [⟨0x100, [7], false, false, false, false⟩] [9, 9, 9]
    (by decide) (by decide) (by decide) (by decide)
  rw [h]
  decide

/-- C4 counterexample: `read_frame` in `lib.rs` (the claim's first cited
source) performs no timeout classification at all — a transport failure
whose message is the classic would-block text is returned as a generic
transport error, not as the dedicated timeout error, even though the
optimized variant classifies exactly that message as a timeout. -/
theorem C4_counterexample :
    isTimeoutMsg ("resource temporarily unavailable".data) = true ∧
    classifyReadErrorLib ("resource temporarily unavailable".data) ≠ ReadError.timeout ∧
    classifyReadErrorOptimized ("resource temporarily unavailable".data) = ReadError.timeout := by
  decide

/-- C4 (amended): only `read_frame` in `lib_optimized.rs` distinguishes
timeout/would-block failures (by matching the lowercased message against
the five timeout patterns) from other transport failures, which pass
through with their message preserved; `read_frame` in `lib.rs` returns
every transport failure unchanged. -/
theorem C4_timeout_classification (msg : List Char) :
    (isTimeoutMsg msg = true → classifyReadErrorOptimized msg = .timeout)
  ∧ (isTimeoutMsg msg = false → classifyReadErrorOptimized msg = .transport msg)
  ∧ classifyReadErrorLib msg = .transport msg := by
  refine ⟨fun h => ?_, fun h => ?_, rfl⟩ <;> simp [classifyReadErrorOptimized, h]

/-- C4 witness: the classification at two concrete messages. -/
theorem C4_timeout_classification_witness :
    classifyReadErrorOptimized ("Connection timed out".data) = ReadError.timeout ∧
    classifyReadErrorOptimized ("no such device".data) =
      ReadError.transport ("no such device".data) :=
  ⟨(C4_timeout_classification ("Connection timed out".data)).1 (by decide),
   (C4_timeout_classification ("no such device".data)).2.1 (by decide)⟩

/-- C5 counterexample: closing the same handle twice does not succeed
twice — the first `close_socket` removes the registry entry, so the
second lookup fails and the call throws the handle-not-found error
(`Invalid socket ID`). -/
theorem C5_counterexample :
    closeSocket [(1, SocketKind.regular)] 1 = .ok [] ∧
    closeSocket [] 1 = .error .handleNotFound := by
  decide

/-- C5 (amended): the wrapper-level `close` always succeeds, and the
first `close_socket` on a live handle succeeds and erases the entry;
afterwards the handle is unusable — send, receive, filter updates, and
a second `close_socket` all fail with `HandleNotFound` (so the second
close fails rather than succeeding). -/
theorem C5_close_behavior (r : Registry) (hdl : Nat) (k : SocketKind)
    (hk : lookupSocket r hdl = some k) :
    wrapperClose k = .ok () ∧
    closeSocket r hdl = .ok (removeSocket r hdl) ∧
    lookupSocket (removeSocket r hdl) hdl = none ∧
    closeSocket (removeSocket r hdl) hdl = .error .handleNotFound ∧
    (∀ id data ext fd rem,
      sendViaRegistry (removeSocket r hdl) hdl id data ext fd rem = .error .handleNotFound) ∧
    (∀ fs, setFiltersViaRegistry (removeSocket r hdl) hdl fs = .error .handleNotFound) ∧
    (∀ (timeoutMs : Option Nat) (wrapperRead : SocketKind → Option Nat →
        Except ReadError ReadResult),
      readViaRegistry (removeSocket r hdl) hdl timeoutMs wrapperRead =
        .error .handleNotFound) := by
  have hnone := lookup_remove_self r hdl
  refine ⟨rfl, ?_, hnone, ?_, ?_, ?_, ?_⟩
  · unfold closeSocket
    rw [hk]
    rfl
  · unfold closeSocket
    rw [hnone]
  · intro id data ext fd rem
    unfold sendViaRegistry
    rw [hnone]
  · intro fs
    unfold setFiltersViaRegistry
    rw [hnone]
  · intro timeoutMs wrapperRead
    unfold readViaRegistry
    rw [hnone]

/-- C5 witness: first close succeeds, second close on the now-empty
registry fails with `HandleNotFound`. -/
theorem C5_close_behavior_witness :
    closeSocket [(2, SocketKind.fd)] 2 = .ok (removeSocket [(2, SocketKind.fd)] 2) ∧
    closeSocket (removeSocket [(2, SocketKind.fd)] 2) 2 = .error .handleNotFound :=
  ⟨(C5_close_behavior [(2, SocketKind.fd)] 2 .fd (by decide)).2.1,
   (C5_close_behavior [(2, SocketKind.fd)] 2 .fd (by decide)).2.2.2.1⟩

/-- C6: payload-length validation per socket variant — a classic socket
accepts exactly payloads of length 0..8 and rejects longer ones with the
payload-too-long error; an FD socket with `fd = true` accepts exactly
0..64 and rejects longer with the FD payload-too-long error; an FD
socket with `fd = false` accepts exactly 0..8.  (Identifier assumed
valid, data frames.) -/
theorem C6_payload_length (id : Nat) (data : List Nat) (ext : Bool)
    (h : ∃ c, validateId id ext = .ok c) :
    (sendAccepts .regular id data ext false false = true ↔ data.length ≤ 8)
  ∧ (8 < data.length → sendFrame .regular id data ext false false = .error .tooLongClassic)
  ∧ (sendAccepts .fd id data ext true false = true ↔ data.length ≤ 64)
  ∧ (64 < data.length → sendFrame .fd id data ext true false = .error .tooLongFd)
  ∧ (sendAccepts .fd id data ext false false = true ↔ data.length ≤ 8) := by
  obtain ⟨c, hc⟩ := h
  unfold sendAccepts sendFrame
  rw [hc]
  refine ⟨?_, ?_, ?_, ?_, ?_⟩ <;>
    (by_cases h8 : data.length > 8 <;> by_cases h64 : data.length > 64 <;>
      simp [h8, h64] <;> omega)

/-- C6 witness: the boundary cases at concrete payloads. -/
theorem C6_payload_length_witness :
    sendAccepts .regular 0x123 [1, 2, 3] false false false = true ∧
    sendFrame .regular 0x123 (List.replicate 9 0) false false false = .error .tooLongClassic ∧
    sendAccepts .fd 0x123 (List.replicate 64 0) false true false = true ∧
    sendFrame .fd 0x123 (List.replicate 65 0) false true false = .error .tooLongFd ∧
    sendAccepts .fd 0x123 [1, 2] false false false = true :=
  ⟨(C6_payload_length 0x123 [1, 2, 3] false ⟨0x123, by decide⟩).1.mpr (by decide),
   (C6_payload_length 0x123 (List.replicate 9 0) false ⟨0x123, by decide⟩).2.1 (by decide),
   (C6_payload_length 0x123 (List.replicate 64 0) false ⟨0x123, by decide⟩).2.2.1.mpr (by decide),
   (C6_payload_length 0x123 (List.replicate 65 0) false ⟨0x123, by decide⟩).2.2.2.1 (by decide),
   (C6_payload_length 0x123 [1, 2] false ⟨0x123, by decide⟩).2.2.2.2.mpr (by decide)⟩

/-- C7: an empty filter list is normalized to the single explicit
accept-all filter `(0, 0)` — a nonempty installed set that matches every
identifier, never "no filtering" and never "accept nothing";
`clear_filters` computes exactly `set_filters([])`; and clearing twice
in a row leaves the accept-all state unchanged after the second call. -/
theorem C7_empty_filters_accept_all :
    (∀ s : FilterState, applySetFilters s [] = ⟨[(0, 0)]⟩)
  ∧ (setFiltersDevice [] = [(0, 0)] ∧ setFiltersDevice [] ≠ [])
  ∧ (∀ s : FilterState, applyClearFilters s = applySetFilters s [])
  ∧ (∀ s : FilterState, applyClearFilters (applyClearFilters s) = applyClearFilters s)
  ∧ (∀ id : Nat, (setFiltersDevice []).all (fun f => filterMatches f id) = true) := by
  refine ⟨fun s => rfl, ⟨rfl, by decide⟩, fun s => rfl, fun s => rfl, fun id => ?_⟩
  simp [setFiltersDevice, filterMatches]

/-- When every request succeeds, the send loop transmits all frames in
order and finishes with the running count. -/
theorem sendLoop_all_ok (kind : SocketKind) (frames : List FrameReq) (c : Nat)
    (h : ∀ f ∈ frames, ∃ s, trySend kind f = .ok s) :
    sendLoop kind frames c =
      (frames.filterMap (fun f => (trySend kind f).toOption), .ok (c + frames.length)) := by
  induction frames generalizing c with
  | nil => simp [sendLoop]
  | cons f rest ih =>
    obtain ⟨s, hs⟩ := h f (List.mem_cons_self f rest)
    have hrest : ∀ g ∈ rest, ∃ t, trySend kind g = .ok t :=
      fun g hg => h g (List.mem_cons_of_mem _ hg)
    simp [sendLoop, hs, ih (c + 1) hrest, Except.toOption]
    omega

/-- When the requests split as `pre ++ fail :: post` with every frame of
`pre` succeeding and `fail` failing, the loop transmits exactly `pre`
and stops with the index `pre.length`. -/
theorem sendLoop_first_fail (kind : SocketKind) (pre : List FrameReq) (fail : FrameReq)
    (post : List FrameReq) (c : Nat)
    (hok : ∀ g ∈ pre, ∃ s, trySend kind g = .ok s)
    (hf : ∀ s, trySend kind fail ≠ .ok s) :
    sendLoop kind (pre ++ fail :: post) c =
      (pre.filterMap (fun g => (trySend kind g).toOption), .error (c + pre.length)) := by
  induction pre generalizing c with
  | nil =>
    cases hts : trySend kind fail with
    | ok s => exact absurd hts (hf s)
    | error e => simp [sendLoop, hts]
  | cons g rest ih =>
    obtain ⟨s, hs⟩ := hok g (List.mem_cons_self g rest)
    have hrest : ∀ g' ∈ rest, ∃ t, trySend kind g' = .ok t :=
      fun g' hg' => hok g' (List.mem_cons_of_mem _ hg')
    simp [sendLoop, hs, ih (c + 1) hrest, Except.toOption]
    omega

/-- C8: bulk send replays the decoded frames through `send_frame` in
decoded order; when every frame is accepted it reports the total count
and has written every frame; when the list splits as `pre ++ fail ::
post` with `pre` all accepted and `fail` rejected, it writes exactly the
frames of `pre` (no rollback), stops, and reports the zero-based index
`pre.length` of the failing frame. -/
theorem C8_bulk_send (kind : SocketKind) (frames : List FrameReq) :
    ((∀ f ∈ frames, ∃ s, trySend kind f = .ok s) →
      bulkSend kind frames =
        (frames.filterMap (fun f => (trySend kind f).toOption), .ok frames.length))
  ∧ (∀ pre fail post, frames = pre ++ fail :: post →
      (∀ g ∈ pre, ∃ s, trySend kind g = .ok s) →
      (∀ s, trySend kind fail ≠ .ok s) →
      bulkSend kind frames =
        (pre.filterMap (fun g => (trySend kind g).toOption), .error pre.length)) := by
  constructor
  · intro h
    simpa [bulkSend] using sendLoop_all_ok kind frames 0 h
  · intro pre fail post heq hok hf
    subst heq
    simpa [bulkSend] using sendLoop_first_fail kind pre fail post 0 hok hf

/-- C8 witness: two frames where the second has an invalid id — the
first is written, the loop stops and reports index 1; and the same two
frames with the second repaired — both written, count 2. -/
theorem C8_bulk_send_witness :
    bulkSend .regular [(0x100, [1], false, false, false), (0x800, [], false, false, false)] =
      ([⟨0x100, false, [1], 1, false, false⟩], .error 1) ∧
    bulkSend .regular [(0x100, [1], false, false, false), (0x200, [], false, false, false)] =
      ([⟨0x100, false, [1], 1, false, false⟩, ⟨0x200, false, [], 0, false, false⟩], .ok 2) := by
  constructor
  · have h := (C8_bulk_send .regular
        [(0x100, [1], false, false, false), (0x800, [], false, false, false)]).2
      [(0x100, [1], false, false, false)] (0x800, [], false, false, false) [] rfl
      (by intro g hg; rw [List.mem_singleton] at hg; subst hg; exact ⟨_, rfl⟩)
      (by
        intro s hcontra
        have hev : trySend .regular (0x800, [], false, false, false) = .error .invalidId := by
          decide
        rw [hev] at hcontra
        cases hcontra)
    rw [h]
    decide
  · have h := (C8_bulk_send .regular
        [(0x100, [1], false, false, false), (0x200, [], false, false, false)]).1
      (by
        intro f hf
        rcases List.mem_cons.mp hf with h1 | h2
        · subst h1; exact ⟨_, rfl⟩
        · rw [List.mem_singleton] at h2; subst h2; exact ⟨_, rfl⟩)
    rw [h]
    decide

/-- One pool interaction preserves the pool invariant. -/
theorem poolInv_step (p : BufferPool) (op : PoolOp) (h : poolInv p) :
    poolInv (poolStep p op) := by
  obtain ⟨hempty, hlen⟩ := h
  cases op with
  | acquire =>
    unfold poolStep BufferPool.getBuffer
    cases hb : p.buffers with
    | nil => exact ⟨by simp, by simp⟩
    | cons b rest =>
      refine ⟨fun x hx => hempty x ?_, ?_⟩
      · rw [hb]
        exact List.mem_cons_of_mem _ hx
      · rw [hb] at hlen
        simp at hlen ⊢
        omega
  | release b =>
    unfold poolStep BufferPool.returnBuffer
    by_cases h1 : 8 ≤ b.cap ∧ b.cap ≤ 128
    · by_cases h2 : p.buffers.length < 100
      · refine ⟨fun x hx => ?_, ?_⟩
        · simp [h1, h2] at hx
          rcases hx with rfl | hx
          · rfl
          · exact hempty _ hx
        · simp [h1, h2]
          omega
      · simpa [h1, h2] using ⟨hempty, hlen⟩
    · simpa [h1] using ⟨hempty, hlen⟩

/-- The pool invariant holds after any interaction sequence. -/
theorem poolInv_run (ops : List PoolOp) (p : BufferPool) (h : poolInv p) :
    poolInv (runPool p ops) := by
  induction ops generalizing p with
  | nil => exact h
  | cons op ops ih => exact ih _ (poolInv_step p op h)

/-- C9: `return_buffer` stores the cleared buffer (contents dropped,
capacity preserved) exactly when its capacity lies in `[8, 128]` and the
pool holds fewer than 100 buffers, and otherwise leaves the pool
unchanged (the buffer is dropped); consequently, starting from the
initial pool of 50 empty 64-byte buffers, after any sequence of
acquire/release operations every stored buffer is empty and the pool
never holds more than 100 buffers. -/
theorem C9_buffer_pool_invariant :
    (∀ (p : BufferPool) (b : PoolBuffer),
      (p.returnBuffer b).buffers =
        if 8 ≤ b.cap ∧ b.cap ≤ 128 ∧ p.buffers.length < 100
        then (⟨[], b.cap⟩ : PoolBuffer) :: p.buffers
        else p.buffers)
  ∧ (∀ ops : List PoolOp, poolInv (runPool (BufferPool.init 50 64) ops)) := by
  constructor
  · intro p b
    unfold BufferPool.returnBuffer
    by_cases h1 : 8 ≤ b.cap ∧ b.cap ≤ 128
    · by_cases h2 : p.buffers.length < 100
      · simp [h1, h2]
      · simp [h1, h2]
    · have : ¬(8 ≤ b.cap ∧ b.cap ≤ 128 ∧ p.buffers.length < 100) := by tauto
      simp [h1, this]
  · intro ops
    refine poolInv_run ops _ ⟨fun b hb => ?_, by simp [BufferPool.init]⟩
    rw [List.eq_of_mem_replicate hb]

/-- C10 counterexample: `0x10000` is outside the Standard range
`[0, 0x7FF]`, yet sending it as Standard with `fd = true` on a classic
socket yields the fd-unsupported error, not the invalid-identifier
error, because the 16-bit truncation lets the id through validation. -/
theorem C10_counterexample :
    (0x800 ≤ 0x10000 ∧ 0x10000 ≤ 0x1FFFFFFF) ∧
    sendFrame .regular 0x10000 [] false true false = .error .fdOnClassic ∧
    SendError.fdOnClassic ≠ SendError.invalidId := by
  decide

/-- C10 (amended): `send_frame` validates the identifier first — any id
that fails the code's identifier check (extended over 29 bits, or
standard whose low 16 bits exceed `0x7FF`) yields `InvalidId` regardless
of every other argument; and on an FD socket the 64-byte length check
precedes the remote-frame rejection, so a remote request with an
oversized payload yields the payload-too-long error. -/
theorem C10_id_check_first (kind : SocketKind) (id : Nat) (data : List Nat)
    (ext isFd isRemote : Bool) :
    (validateId id ext = .error .invalidId →
      sendFrame kind id data ext isFd isRemote = .error .invalidId)
  ∧ (∀ c, validateId id ext = .ok c → 64 < data.length →
      sendFrame .fd id data ext isFd true = .error .tooLongFd) := by
  constructor
  · intro h
    unfold sendFrame
    rw [h]
  · intro c hc hl
    unfold sendFrame
    rw [hc]
    simp [hl]

/-- C10 witness: an id rejected by validation dominates other invalid
arguments, and an FD remote request with a 65-byte payload reports the
length error. -/
theorem C10_id_check_first_witness :
    sendFrame .regular 0x800 (List.replicate 100 0) false true true = .error .invalidId ∧
    sendFrame .fd 0x123 (List.replicate 65 0) false true true = .error .tooLongFd :=
  ⟨(C10_id_check_first .regular 0x800 (List.replicate 100 0) false true true).1 (by decide),
   (C10_id_check_first .fd 0x123 (List.replicate 65 0) false true true).2 0x123 (by decide)
     (by decide)⟩

end CanSocket
